import Mathlib

set_option maxRecDepth 8000
set_option autoImplicit false

/-!
Verification of the statistics-file parser core of YUView
(source/playlistItemStatisticsFile.cpp): the CSV line tokenizer
(parseCSVLine), the header reader (readHeaderFromFile), the background
position indexer (readFrameAndTypePositionsFromFile) and the frame/type
data loader (loadStatisticToCache), shallowly embedded over lists of
characters.  Machine integers are modelled as Int with the explicit
range behaviour of the Qt conversion functions; byte offsets are Nat.
-/

/-! ### Qt string helpers -/

/-- Whitespace as trimmed by QString::trimmed (ASCII subset; the
properties proved below only exercise spaces and newlines). -/
def isQtSpace (c : Char) : Bool :=
  (c == ' ') || (c == '\t') || (c == '\n') || (c == '\r')

/-- QString::trimmed on a list of characters. -/
def qtrim (cs : List Char) : List Char :=
  ((cs.dropWhile isQtSpace).reverse.dropWhile isQtSpace).reverse

/-- QString::split on a single-character delimiter, keeping empty parts
(Qt default behaviour).  An empty input yields one empty field. -/
def splitKeepEmpty (delimiter : Char) : List Char → List (List Char)
  | [] => [[]]
  | c :: rest =>
    match splitKeepEmpty delimiter rest with
    | [] => [[]]
    | g :: gs => if c = delimiter then [] :: g :: gs else (c :: g) :: gs

/-- playlistItemStatisticsFile::parseCSVLine: trim the line, remove all
space characters, then split on the delimiter. -/
def parseCSVLine (srcLine : List Char) (delimiter : Char) : List (List Char) :=
  splitKeepEmpty delimiter ((qtrim srcLine).filter (fun c => c != ' '))

def digitsToNatAux : List Char → Nat → Option Nat
  | [], acc => some acc
  | c :: cs, acc =>
    if c.isDigit then digitsToNatAux cs (10 * acc + (c.toNat - 48)) else none

def digitsToNat? (cs : List Char) : Option Nat :=
  match cs with
  | [] => none
  | _ :: _ => digitsToNatAux cs 0

/-- QString::toInt (base 10): an optional sign followed by digits;
anything else, or a value outside the 32-bit int range, yields 0. -/
def qToInt (cs : List Char) : Int :=
  let parsed : Option Int :=
    match cs with
    | '-' :: rest => (digitsToNat? rest).map (fun n => -(n : Int))
    | '+' :: rest => (digitsToNat? rest).map (fun n => (n : Int))
    | _ => (digitsToNat? cs).map (fun n => (n : Int))
  match parsed with
  | none => 0
  | some v => if v < -2147483648 ∨ 2147483647 < v then 0 else v

/-- QString::toUInt whose result the source assigns to an int variable:
a failed parse or a value outside the uint range yields 0, otherwise the
uint is converted to a 32-bit signed value. -/
def qToUInt (cs : List Char) : Int :=
  let body := match cs with | '+' :: rest => rest | other => other
  match digitsToNat? body with
  | none => 0
  | some n =>
    if 4294967295 < n then 0
    else if n < 2147483648 then (n : Int) else (n : Int) - 4294967296

/-! ### Association-list maps (QMap; key order is irrelevant to every
property proved in this file) -/

def mapGet? {α : Type} : List (Int × α) → Int → Option α
  | [], _ => none
  | (k, v) :: rest, key => if k = key then some v else mapGet? rest key

def mapContains {α : Type} (m : List (Int × α)) (key : Int) : Bool :=
  (mapGet? m key).isSome

/-- QMap operator[] assignment: overwrite the binding if the key is
present, add it otherwise. -/
def mapSet {α : Type} : List (Int × α) → Int → α → List (Int × α)
  | [], key, v => [(key, v)]
  | (k, w) :: rest, key, v =>
    if k = key then (key, v) :: rest else (k, w) :: mapSet rest key v

/-! ### The position index (pocTypeStartList) -/

/-- pocTypeStartList: POC to (typeID to byte offset of the first data
line of that pair). -/
abbrev PocTypeStartList := List (Int × List (Int × Nat))

def ptslContainsPoc (idx : PocTypeStartList) (poc : Int) : Bool :=
  mapContains idx poc

/-- Read-only view of pocTypeStartList[poc] (an absent POC reads as the
empty inner map). -/
def ptslInner (idx : PocTypeStartList) (poc : Int) : List (Int × Nat) :=
  (mapGet? idx poc).getD []

def ptslContainsPair (idx : PocTypeStartList) (poc ty : Int) : Bool :=
  ptslContainsPoc idx poc && mapContains (ptslInner idx poc) ty

def ptslLookup (idx : PocTypeStartList) (poc ty : Int) : Option Nat :=
  mapGet? (ptslInner idx poc) ty

/-- pocTypeStartList[poc][typeID] = off. -/
def ptslSet (idx : PocTypeStartList) (poc ty : Int) (off : Nat) : PocTypeStartList :=
  mapSet idx poc (mapSet (ptslInner idx poc) ty off)

/-! ### The background position indexer
(readFrameAndTypePositionsFromFile), per-data-line step -/

/-- One already-extracted data line of the indexing pass: POC from
field 0, typeID from field 5, and the byte offset where the line
starts. -/
structure IndexLine where
  poc : Int
  ty : Int
  off : Nat
deriving DecidableEq, Repr

/-- The scan state carried across lines and buffer chunks by
readFrameAndTypePositionsFromFile.  lastPOC and lastType start at
INT_INVALID (-1). -/
structure ScanState where
  pocTypeStartList : PocTypeStartList := []
  lastPOC : Int := -1
  lastType : Int := -1
  sortingFixed : Bool := false
  fileSortedByPOC : Bool := false
  maxPOC : Int := 0
deriving DecidableEq, Repr

def initScanState : ScanState := {}

/-- The message thrown at source line 233. -/
def interleavedContinuityError : String :=
  "The data for each POC must be continuous in an interleaved statistics file->"

/-- The message thrown at source line 240. -/
def sequentialContinuityError : String :=
  "The data for each typeID must be continuous in an non interleaved statistics file->"

/-- One data line of readFrameAndTypePositionsFromFile (source lines
181-257).  Returns the updated state and, when a continuity violation
is thrown, the error message; on a throw the field mutated before the
throw (sortingFixed) is kept and the index is left as it was. -/
def indexLineStep (st : ScanState) (l : IndexLine) : ScanState × Option String :=
  if st.lastType = -1 ∧ st.lastPOC = -1 then
    ({ st with
        pocTypeStartList := ptslSet st.pocTypeStartList l.poc l.ty l.off,
        lastType := l.ty,
        lastPOC := l.poc,
        maxPOC := if st.maxPOC < l.poc then l.poc else st.maxPOC }, none)
  else if l.ty ≠ st.lastType ∧ l.poc = st.lastPOC then
    let stA := if st.sortingFixed then st
               else { st with fileSortedByPOC := true, sortingFixed := true }
    let stB := { stA with lastType := l.ty }
    if ptslContainsPair stB.pocTypeStartList l.poc l.ty then (stB, none)
    else ({ stB with
             pocTypeStartList := ptslSet stB.pocTypeStartList l.poc l.ty l.off }, none)
  else if l.poc ≠ st.lastPOC then
    let stA := if st.sortingFixed then st else { st with sortingFixed := true }
    if stA.fileSortedByPOC then
      if ptslContainsPoc stA.pocTypeStartList l.poc then
        (stA, some interleavedContinuityError)
      else
        ({ stA with
            pocTypeStartList := ptslSet stA.pocTypeStartList l.poc l.ty l.off,
            lastPOC := l.poc,
            lastType := l.ty,
            maxPOC := if stA.maxPOC < l.poc then l.poc else stA.maxPOC }, none)
    else
      if ptslContainsPair stA.pocTypeStartList l.poc l.ty then
        (stA, some sequentialContinuityError)
      else
        ({ stA with
            pocTypeStartList := ptslSet stA.pocTypeStartList l.poc l.ty l.off,
            lastPOC := l.poc,
            lastType := l.ty,
            maxPOC := if stA.maxPOC < l.poc then l.poc else stA.maxPOC }, none)
  else (st, none)

/-- Run the indexer line step over a list of data lines, stopping at the
first thrown error (the C++ exception propagates out of the scan loop;
the index built so far is retained). -/
def runIndexer (st : ScanState) : List IndexLine → ScanState × Option String
  | [] => (st, none)
  | l :: ls =>
    match indexLineStep st l with
    | (st1, none) => runIndexer st1 ls
    | (st1, some e) => (st1, some e)

/-- The layout mode abstraction used by the specification: Unknown until
sortingFixed is set, then Interleaved when fileSortedByPOC is set and
Sequential otherwise. -/
inductive LayoutMode where
  | Unknown
  | Sequential
  | Interleaved
deriving DecidableEq, Repr

def ScanState.layoutMode (st : ScanState) : LayoutMode :=
  if st.sortingFixed = false then LayoutMode.Unknown
  else if st.fileSortedByPOC then LayoutMode.Interleaved
  else LayoutMode.Sequential

/-! ### The background indexer, byte level: buffered chunk loop of
readFrameAndTypePositionsFromFile (source lines 146-270) -/

/-- The internal parsing buffer size (source line 45). -/
def STAT_PARSING_BUFFER_SIZE : Nat := 1048576

/-- How a scan pass can stop abnormally: a thrown parse error, or an
out-of-range QStringList access (undefined behaviour in the C++
source, modelled explicitly). -/
inductive ScanAbort where
  | parseErr (msg : String)
  | fieldOutOfRange
deriving DecidableEq, Repr

/-- State carried across buffer chunks: the scan state, the growable
line buffer and the byte offset where the current line began. -/
structure BgState where
  scan : ScanState := initScanState
  lineBuffer : List Char := []
  lineBufferStartPos : Nat := 0
deriving DecidableEq, Repr

def initBgState : BgState := {}

/-- Parse one completed line of the indexing pass (source lines
176-258): ignore empty entries and header lines, otherwise extract POC
from field 0 and typeID from field 5 and feed them to indexLineStep.
Reading field 5 of a shorter record is an out-of-range QStringList
access in the source. -/
def processCompletedLine (sc : ScanState) (lineBuffer : List Char) (lineStart : Nat) :
    ScanState × Option ScanAbort :=
  let row := parseCSVLine lineBuffer ';'
  let f0 := row.headD []
  if f0 ≠ [] ∧ f0.headD ' ' ≠ '%' then
    if 5 < row.length then
      match indexLineStep sc ⟨qToInt f0, qToInt (row.getD 5 []), lineStart⟩ with
      | (sc1, none) => (sc1, none)
      | (sc1, some msg) => (sc1, some (ScanAbort.parseErr msg))
    else (sc, some ScanAbort.fieldOutOfRange)
  else (sc, none)

/-- Scan the bytes of one buffer chunk (source lines 166-267), starting
at in-chunk position i; bufferStartPos is the absolute offset of the
chunk.  A newline completes the pending line; a thrown error propagates
out immediately. -/
def processChunkFrom : BgState → Nat → Nat → List Char → BgState × Option ScanAbort
  | ps, _, _, [] => (ps, none)
  | ps, bufferStartPos, i, c :: rest =>
    if c = '\n' then
      match (if ps.lineBuffer ≠ [] then
               processCompletedLine ps.scan ps.lineBuffer ps.lineBufferStartPos
             else (ps.scan, none)) with
      | (sc1, some a) => ({ ps with scan := sc1 }, some a)
      | (sc1, none) =>
        processChunkFrom
          { scan := sc1, lineBuffer := [], lineBufferStartPos := bufferStartPos + i + 1 }
          bufferStartPos (i + 1) rest
    else
      processChunkFrom { ps with lineBuffer := ps.lineBuffer ++ [c] }
        bufferStartPos (i + 1) rest

/-- The buffered read loop of readFrameAndTypePositionsFromFile.  The
cancellation flag cancelBackgroundParser is polled once per loop
iteration, before reading chunk number k; it is modelled as the
function cancel giving the value observed at that poll.  A chunk
shorter than the buffer size means the file is at its end.  The k-th
iteration reads the bytes at offset bufferStartPos. -/
def bgParseLoop (cancel : Nat → Bool) :
    Nat → Nat → List Char → BgState → BgState × Option ScanAbort
  | k, bufferStartPos, remaining, ps =>
    if cancel k then (ps, none)
    else
      let chunk := remaining.take STAT_PARSING_BUFFER_SIZE
      match processChunkFrom ps bufferStartPos 0 chunk with
      | (ps1, some a) => (ps1, some a)
      | (ps1, none) =>
        if h : chunk.length < STAT_PARSING_BUFFER_SIZE then (ps1, none)
        else bgParseLoop cancel (k + 1) (bufferStartPos + chunk.length)
               (remaining.drop STAT_PARSING_BUFFER_SIZE) ps1
termination_by k bufferStartPos remaining ps => remaining.length
decreasing_by
  unfold_let chunk at *
  simp only [List.length_take, List.length_drop, STAT_PARSING_BUFFER_SIZE] at *
  omega

/-- The same chunk processing restricted to the first k chunks and with
no cancellation: the reference computation that a cancelled run is
compared against. -/
def runFirstChunks : Nat → Nat → List Char → BgState → BgState × Option ScanAbort
  | 0, _, _, ps => (ps, none)
  | k + 1, bufferStartPos, remaining, ps =>
    let chunk := remaining.take STAT_PARSING_BUFFER_SIZE
    match processChunkFrom ps bufferStartPos 0 chunk with
    | (ps1, some a) => (ps1, some a)
    | (ps1, none) =>
      if chunk.length < STAT_PARSING_BUFFER_SIZE then (ps1, none)
      else runFirstChunks k (bufferStartPos + chunk.length)
             (remaining.drop STAT_PARSING_BUFFER_SIZE) ps1

/-- The whole background pass over the file content (the file is
re-opened at offset 0 by the background thread). -/
def readFrameAndTypePositionsFromFile (cancel : Nat → Bool) (content : List Char) :
    BgState × Option ScanAbort :=
  bgParseLoop cancel 0 0 content initBgState

/-! ### The frame/type data loader (loadStatisticToCache, source lines
467-589) -/

/-- One decoded cache record: addBlockValue, addBlockVector or addLine. -/
inductive CacheItem where
  | blockValue (posX posY width height val : Int)
  | blockVector (posX posY width height vecX vecY : Int)
  | line (posX posY width height x1 y1 x2 y2 : Int)
deriving DecidableEq, Repr

/-- statsCache: typeID to the list of records added for the loaded frame. -/
abbrev StatsCache := List (Int × List CacheItem)

/-- The surrounding state the loader consults: the type registry of the
statSource (typeID to its hasVectorData flag) and the declared frame
size. -/
structure LoaderCtx where
  statTypes : List (Int × Bool)
  frameW : Int
  frameH : Int
deriving DecidableEq, Repr

/-- The mutable state the loader writes: the live-render cache, the
chart-snapshot cache and the block-outside-of-frame warning index. -/
structure LoaderState where
  statsCache : StatsCache := []
  chartStatsCache : StatsCache := []
  blockOutsideOfFrame_idx : Int := -1
deriving DecidableEq, Repr

/-- statsCache[type].addX(...): operator[] creates an empty entry if
absent, then the record is appended. -/
def cacheAdd (c : StatsCache) (key : Int) (item : CacheItem) : StatsCache :=
  mapSet c key (((mapGet? c key).getD []) ++ [item])

/-- The source appends every record to both caches with identical calls. -/
def cachesAppend (st : LoaderState) (key : Int) (item : CacheItem) : LoaderState :=
  { st with statsCache := cacheAdd st.statsCache key item,
            chartStatsCache := cacheAdd st.chartStatsCache key item }

/-- Tail of the loader record decode (source lines 544-571): position
fields, the block-outside-of-frame warning, the stat-type assertion and
the classification into vector / line / block value.  Returns none when
the Q_ASSERT on the stat type fails. -/
def loaderCommit (ctx : LoaderCtx) (frameIdx : Int) (st : LoaderState) (ty : Int)
    (row : List (List Char)) (v0 v1 v2 v3 : Int) (vectorData lineData : Bool) :
    Option (LoaderState × Bool) :=
  let posX := qToInt (row.getD 1 [])
  let posY := qToInt (row.getD 2 [])
  let width := qToUInt (row.getD 3 [])
  let height := qToUInt (row.getD 4 [])
  let st1 :=
    if st.blockOutsideOfFrame_idx = -1 ∧
        (ctx.frameW < posX + width ∨ ctx.frameH < posY + height) then
      { st with blockOutsideOfFrame_idx := frameIdx }
    else st
  match mapGet? ctx.statTypes ty with
  | none => none
  | some hasVectorData =>
    if vectorData && hasVectorData then
      some (cachesAppend st1 ty (CacheItem.blockVector posX posY width height v0 v1), true)
    else if lineData && hasVectorData then
      some (cachesAppend st1 ty (CacheItem.line posX posY width height v0 v1 v2 v3), true)
    else
      some (cachesAppend st1 ty (CacheItem.blockValue posX posY width height v0), true)

/-- One line of the loadStatisticToCache scan loop (source lines
503-572).  Returns none when the source would perform an out-of-range
QStringList access or fail its stat-type assertion; otherwise the
updated state and whether scanning continues (false models the break
statements). -/
def loaderLineStep (ctx : LoaderCtx) (fileSortedByPOC : Bool) (frameIdx typeID : Int)
    (st : LoaderState) (aLine : List Char) : Option (LoaderState × Bool) :=
  let row := parseCSVLine aLine ';'
  if row.headD [] = [] then some (st, true)
  else if 5 < row.length then
    if qToInt (row.headD []) ≠ frameIdx then some (st, false)
    else if fileSortedByPOC = false ∧ qToInt (row.getD 5 []) ≠ typeID then some (st, false)
    else if 6 < row.length then
      if 8 < row.length then
        if 9 < row.length then
          loaderCommit ctx frameIdx st (qToInt (row.getD 5 [])) row
            (qToInt (row.getD 6 [])) (qToInt (row.getD 7 []))
            (qToInt (row.getD 8 [])) (qToInt (row.getD 9 []))
            false true
        else none
      else
        loaderCommit ctx frameIdx st (qToInt (row.getD 5 [])) row
          (qToInt (row.getD 6 []))
          (if 7 < row.length then qToInt (row.getD 7 []) else 0) 0 0
          (decide (7 < row.length)) false
    else none
  else none

/-- The loader scan loop over the lines read from the start offset. -/
def loaderScan (ctx : LoaderCtx) (fileSortedByPOC : Bool) (frameIdx typeID : Int) :
    LoaderState → List (List Char) → Option LoaderState
  | st, [] => some st
  | st, l :: ls =>
    match loaderLineStep ctx fileSortedByPOC frameIdx typeID st l with
    | none => none
    | some (st1, false) => some st1
    | some (st1, true) => loaderScan ctx fileSortedByPOC frameIdx typeID st1 ls

/-- std::numeric_limits of qint64, the initial value of the minimum
computation at source line 494. -/
def qint64Max : Nat := 9223372036854775807

/-- The minimum loop over the offsets recorded for one POC (source
lines 494-497). -/
def minStartPos : List (Int × Nat) → Nat → Nat
  | [], acc => acc
  | (_, v) :: rest, acc => minStartPos rest (if v < acc then v else acc)

/-- The scan start offset (source lines 486-498): in an interleaved
file the minimum recorded offset among all typeIDs of the POC, in a
sequential file the recorded offset of the pair itself. -/
def loadScanStartPos (idx : PocTypeStartList) (fileSortedByPOC : Bool)
    (frameIdx typeID : Int) : Nat :=
  if fileSortedByPOC then minStartPos (ptslInner idx frameIdx) qint64Max
  else (ptslLookup idx frameIdx typeID).getD 0

/-- The file as lines paired with their byte start offsets; seeking to
an offset yields the lines at or after it. -/
def seekLines (fileLines : List (Nat × List Char)) (startPos : Nat) : List (List Char) :=
  (fileLines.dropWhile (fun l => l.1 < startPos)).map Prod.snd

/-- loadStatisticToCache(frameIdxInternal, typeID), source lines
467-589: on an index miss both caches get an explicitly-empty entry;
otherwise the file is scanned from the computed start offset. -/
def loadStatisticToCache (ctx : LoaderCtx) (idx : PocTypeStartList)
    (fileSortedByPOC : Bool) (fileLines : List (Nat × List Char))
    (st : LoaderState) (frameIdx typeID : Int) : Option LoaderState :=
  if !(ptslContainsPoc idx frameIdx) || !(mapContains (ptslInner idx frameIdx) typeID) then
    some { st with statsCache := mapSet st.statsCache typeID [],
                   chartStatsCache := mapSet st.chartStatsCache typeID [] }
  else
    loaderScan ctx fileSortedByPOC frameIdx typeID st
      (seekLines fileLines (loadScanStartPos idx fileSortedByPOC frameIdx typeID))

/-! ### The header reader (readHeaderFromFile, source lines 302-465) -/

/-- Conversion of an int to unsigned char as done by the casts in the
header reader. -/
def toUChar (v : Int) : Int := v % 256

/-- Models the test rowItemList[6].toDouble() > 0.0 of the seq-specs
record (source line 445): a plain unsigned decimal with at least one
nonzero digit.  Exponent forms of QString::toDouble are not modelled;
no property proved here depends on this function. -/
def qToDoubleIsPositive (cs : List Char) : Bool :=
  let body := match cs with | '+' :: rest => rest | other => other
  let ip := body.takeWhile Char.isDigit
  let rest := body.drop ip.length
  let valid : Bool :=
    match rest with
    | [] => !ip.isEmpty
    | '.' :: fr => fr.all Char.isDigit && (!ip.isEmpty || !fr.isEmpty)
    | _ => false
  valid && body.any (fun c => c.isDigit && c != '0')

/-- The fields of a StatisticsType written by the header reader.  The
constructor defaults live in statisticsExtensions.h (not part of the
sources under verification); no property proved here depends on them. -/
structure StatisticsType where
  typeID : Int := -1
  typeName : List Char := []
  hasValueData : Bool := false
  renderValueData : Bool := false
  hasVectorData : Bool := false
  renderVectorData : Bool := false
  arrowHeadNone : Bool := false
  colorMapEntries : List (Int × (Int × Int × Int × Int)) := []
  rangeSet : Bool := false
  rangeMin : Int := 0
  rangeMax : Int := 0
  rangeMinColor : Int × Int × Int × Int := (0, 0, 0, 0)
  rangeMaxColor : Int × Int × Int × Int := (0, 0, 0, 0)
  defaultRangeSet : Bool := false
  defaultRangeName : List Char := []
  defaultRangeMin : Int := 0
  defaultRangeMax : Int := 0
  vectorColor : Option (Int × Int × Int × Int) := none
  gridColor : Option (Int × Int × Int × Int) := none
  vectorScale : Int := 1
  scaleValueToBlockSize : Bool := false
deriving DecidableEq, Repr

/-- The state of the header reading loop: the open type being built,
the registry populated by addStatType, and the seq-specs data written
to the statSource and the playlist item. -/
structure HeaderState where
  typeParsingActive : Bool := false
  aType : StatisticsType := {}
  statTypes : List StatisticsType := []
  statFrameW : Int := -1
  statFrameH : Int := -1
  frameRateSetFrom : Option (List Char) := none
deriving DecidableEq, Repr

def initHeaderState : HeaderState := {}

/-- Outcome of reading one header line: keep looping, return (a
non-header line was reached), or an out-of-range QStringList access
(undefined behaviour in the source; the function contains no throw, so
no parse error outcome exists). -/
inductive HeaderStep where
  | cont (hs : HeaderState)
  | finished (hs : HeaderState)
  | outOfRange
deriving DecidableEq, Repr

/-- The directive dispatch of the header reader (source lines 346-447),
keyed on field 1.  Every field read in a recognized record kind is
guarded by the record being long enough; a shorter record is an
out-of-range QStringList access in the source. -/
def headerDispatch (hs : HeaderState) (row : List (List Char)) (f1 : List Char) :
    HeaderStep :=
  if f1 = "type".toList then
    if 3 < row.length then
      let t0 := { hs.aType with typeID := qToInt (row.getD 2 []),
                                typeName := row.getD 3 [] }
      let t1 :=
        if 4 < row.length then
          if row.getD 4 [] = "map".toList ∨ row.getD 4 [] = "range".toList then
            { t0 with hasValueData := true, renderValueData := true }
          else if row.getD 4 [] = "vector".toList ∨ row.getD 4 [] = "line".toList then
            let tv := { t0 with hasVectorData := true, renderVectorData := true }
            if row.getD 4 [] = "line".toList then { tv with arrowHeadNone := true } else tv
          else t0
        else t0
      HeaderStep.cont { hs with aType := t1, typeParsingActive := true }
    else HeaderStep.outOfRange
  else if f1 = "mapColor".toList then
    if 6 < row.length then
      let id := qToInt (row.getD 2 [])
      let cr := toUChar (qToInt (row.getD 3 []))
      let cg := toUChar (qToInt (row.getD 4 []))
      let cb := toUChar (qToInt (row.getD 5 []))
      let ca := toUChar (qToInt (row.getD 6 []))
      HeaderStep.cont { hs with aType :=
        { hs.aType with
            colorMapEntries := mapSet hs.aType.colorMapEntries id (cr, cg, cb, ca) } }
    else HeaderStep.outOfRange
  else if f1 = "range".toList then
    if 11 < row.length then
      HeaderStep.cont { hs with aType :=
        { hs.aType with
            rangeSet := true,
            rangeMin := qToInt (row.getD 2 []),
            rangeMax := qToInt (row.getD 3 []),
            rangeMinColor := (toUChar (qToInt (row.getD 4 [])),
                              toUChar (qToInt (row.getD 6 [])),
                              toUChar (qToInt (row.getD 8 [])),
                              toUChar (qToInt (row.getD 10 []))),
            rangeMaxColor := (toUChar (qToInt (row.getD 5 [])),
                              toUChar (qToInt (row.getD 7 [])),
                              toUChar (qToInt (row.getD 9 [])),
                              toUChar (qToInt (row.getD 11 []))) } }
    else HeaderStep.outOfRange
  else if f1 = "defaultRange".toList then
    if 4 < row.length then
      HeaderStep.cont { hs with aType :=
        { hs.aType with
            defaultRangeSet := true,
            defaultRangeMin := qToInt (row.getD 2 []),
            defaultRangeMax := qToInt (row.getD 3 []),
            defaultRangeName := row.getD 4 [] } }
    else HeaderStep.outOfRange
  else if f1 = "vectorColor".toList then
    if 5 < row.length then
      HeaderStep.cont { hs with aType :=
        { hs.aType with
            vectorColor := some (toUChar (qToInt (row.getD 2 [])),
              toUChar (qToInt (row.getD 3 [])), toUChar (qToInt (row.getD 4 [])),
              toUChar (qToInt (row.getD 5 []))) } }
    else HeaderStep.outOfRange
  else if f1 = "gridColor".toList then
    if 4 < row.length then
      HeaderStep.cont { hs with aType :=
        { hs.aType with
            gridColor := some (toUChar (qToInt (row.getD 2 [])),
              toUChar (qToInt (row.getD 3 [])), toUChar (qToInt (row.getD 4 []))) } }
    else HeaderStep.outOfRange
  else if f1 = "scaleFactor".toList then
    if 2 < row.length then
      HeaderStep.cont { hs with aType :=
        { hs.aType with vectorScale := qToInt (row.getD 2 []) } }
    else HeaderStep.outOfRange
  else if f1 = "scaleToBlockSize".toList then
    if 2 < row.length then
      HeaderStep.cont { hs with aType :=
        { hs.aType with scaleValueToBlockSize := (row.getD 2 [] = "1".toList) } }
    else HeaderStep.outOfRange
  else if f1 = "seq-specs".toList then
    if 6 < row.length then
      let width := qToInt (row.getD 4 [])
      let height := qToInt (row.getD 5 [])
      let hs1 := if 0 < width ∧ 0 < height then
                   { hs with statFrameW := width, statFrameH := height }
                 else hs
      HeaderStep.cont (if qToDoubleIsPositive (row.getD 6 []) then
                         { hs1 with frameRateSetFrom := some (row.getD 6 []) }
                       else hs1)
    else HeaderStep.outOfRange
  else HeaderStep.cont hs

/-- One line of the header reading loop (source lines 318-448).  Field
1 is read unconditionally by the type/non-header test at line 331, so a
nonempty one-field record is already an out-of-range access.  A new
type record or a non-header record first finalizes the open type; only
a non-header record makes the loop return. -/
def readHeaderLine (hs : HeaderState) (aLine : List Char) : HeaderStep :=
  let row := parseCSVLine aLine ';'
  let f0 := row.headD []
  if f0 = [] then HeaderStep.cont hs
  else if 1 < row.length then
    let f1 := row.getD 1 []
    let nonHeader := f0.headD ' ' ≠ '%'
    if (f1 = "type".toList ∨ nonHeader) ∧ hs.typeParsingActive then
      let hs1 := { hs with statTypes := hs.statTypes ++ [hs.aType],
                           aType := {}, typeParsingActive := false }
      if nonHeader then HeaderStep.finished hs1
      else headerDispatch hs1 row f1
    else headerDispatch hs row f1
  else HeaderStep.outOfRange

/-- The result of readHeaderFromFile: the final state, or the undefined
behaviour marker.  The source function never throws, so there is no
parse-error outcome. -/
inductive HeaderResult where
  | ok (hs : HeaderState)
  | outOfRange
deriving DecidableEq, Repr

/-- readHeaderFromFile over the lines of the file.  At end of file an
open type is left unregistered (the C++ loop just ends). -/
def readHeaderFromFile : HeaderState → List (List Char) → HeaderResult
  | hs, [] => HeaderResult.ok hs
  | hs, l :: ls =>
    match readHeaderLine hs l with
    | HeaderStep.cont hs1 => readHeaderFromFile hs1 ls
    | HeaderStep.finished hs1 => HeaderResult.ok hs1
    | HeaderStep.outOfRange => HeaderResult.outOfRange

/-! ### Auxiliary notions used in the statements about the indexer -/

/-- The byte offset of the first line of a (POC, typeID) pair in a list
of data lines. -/
def firstOffsetOf : List IndexLine → Int → Int → Option Nat
  | [], _, _ => none
  | l :: ls, poc, ty =>
    if l.poc = poc ∧ l.ty = ty then some l.off else firstOffsetOf ls poc ty

/-- Collapse consecutive equal elements to a single one. -/
def dedupRuns {α : Type} [DecidableEq α] : List α → List α
  | [] => []
  | [x] => [x]
  | x :: y :: t => if x = y then dedupRuns (y :: t) else x :: dedupRuns (y :: t)

/-- A value sequence has no non-contiguous repetition exactly when its
run-collapsed form has no duplicates. -/
abbrev noNoncontigRepeats {α : Type} [DecidableEq α] (xs : List α) : Prop :=
  (dedupRuns xs).Nodup

/-- Shape of a type-major (sequential) tail of data lines, relative to
the key (POC, typeID) of the previous line and the set of keys already
seen: each line either continues the current run, or starts a run with
a fresh key whose POC is non-negative and differs from the POC of the
previous line. -/
inductive SeqTail : Int × Int → List (Int × Int) → List IndexLine → Prop
  | nil (pk : Int × Int) (seen : List (Int × Int)) : SeqTail pk seen []
  | same (pk : Int × Int) (seen : List (Int × Int)) (off : Nat) (rest : List IndexLine) :
      SeqTail pk seen rest →
      SeqTail pk seen (⟨pk.1, pk.2, off⟩ :: rest)
  | newRun (pk : Int × Int) (seen : List (Int × Int)) (poc ty : Int) (off : Nat)
      (rest : List IndexLine) :
      0 ≤ poc → poc ≠ pk.1 → (poc, ty) ∉ seen →
      SeqTail (poc, ty) ((poc, ty) :: seen) rest →
      SeqTail pk seen (⟨poc, ty, off⟩ :: rest)

/-! ### Helper lemmas on the association maps and the index -/

theorem mapGet?_mapSet_self {α : Type} (m : List (Int × α)) (k : Int) (v : α) :
    mapGet? (mapSet m k v) k = some v := by
  induction m with
  | nil => simp [mapSet, mapGet?]
  | cons kv rest ih =>
    obtain ⟨k1, v1⟩ := kv
    by_cases h : k1 = k
    · simp [mapSet, h, mapGet?]
    · simp [mapSet, h, mapGet?, ih]

theorem mapGet?_mapSet_ne {α : Type} (m : List (Int × α)) (k k2 : Int) (v : α)
    (h : k2 ≠ k) : mapGet? (mapSet m k v) k2 = mapGet? m k2 := by
  have hk : k ≠ k2 := fun hh => h hh.symm
  induction m with
  | nil => simp [mapSet, mapGet?, hk]
  | cons kv rest ih =>
    obtain ⟨k1, v1⟩ := kv
    by_cases h1 : k1 = k
    · subst h1; simp [mapSet, mapGet?, hk]
    · simp [mapSet, h1, mapGet?, ih]

theorem mapGet?_mem {α : Type} (m : List (Int × α)) (k : Int) (v : α)
    (h : mapGet? m k = some v) : (k, v) ∈ m := by
  induction m with
  | nil => simp [mapGet?] at h
  | cons kv rest ih =>
    obtain ⟨k1, v1⟩ := kv
    by_cases hk : k1 = k
    · subst hk
      simp [mapGet?] at h
      subst h
      exact List.mem_cons_self _ _
    · simp only [mapGet?, if_neg hk] at h
      exact List.mem_cons_of_mem _ (ih h)

theorem ptslLookup_set_self (idx : PocTypeStartList) (poc ty : Int) (off : Nat) :
    ptslLookup (ptslSet idx poc ty off) poc ty = some off := by
  unfold ptslLookup ptslSet ptslInner
  rw [mapGet?_mapSet_self]
  simp [mapGet?_mapSet_self]

theorem ptslLookup_set_ne (idx : PocTypeStartList) (poc ty p t : Int) (off : Nat)
    (h : (p, t) ≠ (poc, ty)) :
    ptslLookup (ptslSet idx poc ty off) p t = ptslLookup idx p t := by
  by_cases hp : p = poc
  · subst hp
    have ht : t ≠ ty := by
      intro hh
      exact h (by rw [hh])
    unfold ptslLookup ptslSet ptslInner
    rw [mapGet?_mapSet_self]
    simp only [Option.getD_some]
    rw [mapGet?_mapSet_ne _ _ _ _ ht]
  · unfold ptslLookup ptslSet ptslInner
    rw [mapGet?_mapSet_ne _ _ _ _ hp]

theorem ptslContainsPair_eq_isSome (idx : PocTypeStartList) (poc ty : Int) :
    ptslContainsPair idx poc ty = (ptslLookup idx poc ty).isSome := by
  unfold ptslContainsPair ptslContainsPoc ptslLookup ptslInner mapContains
  cases h : mapGet? idx poc <;> simp [h, mapGet?]

theorem scanState_sortingFixed_overwrite (st : ScanState) (h : st.sortingFixed = true) :
    { st with sortingFixed := true } = st := by
  cases st
  simp_all

theorem minStartPos_spec (m : List (Int × Nat)) (acc : Nat) :
    (minStartPos m acc = acc ∨ minStartPos m acc ∈ m.map Prod.snd) ∧
    minStartPos m acc ≤ acc ∧
    ∀ v ∈ m.map Prod.snd, minStartPos m acc ≤ v := by
  induction m generalizing acc with
  | nil => simp [minStartPos]
  | cons kv rest ih =>
    obtain ⟨k, v⟩ := kv
    have hstep : minStartPos ((k, v) :: rest) acc =
        minStartPos rest (if v < acc then v else acc) := rfl
    obtain ⟨ih1, ih2, ih3⟩ := ih (if v < acc then v else acc)
    have hacc2le : (if v < acc then v else acc) ≤ acc := by split <;> omega
    have hacc2lev : (if v < acc then v else acc) ≤ v := by split <;> omega
    refine ⟨?_, ?_, ?_⟩
    · rw [hstep]
      rcases ih1 with h | h
      · by_cases hv : v < acc
        · right
          simp only [List.map_cons, List.mem_cons]
          left
          rw [h, if_pos hv]
        · left
          rw [h, if_neg hv]
      · right
        simp only [List.map_cons, List.mem_cons]
        right
        exact h
    · rw [hstep]
      exact le_trans ih2 hacc2le
    · intro x hx
      rw [hstep]
      simp only [List.map_cons, List.mem_cons] at hx
      rcases hx with rfl | hx
      · exact le_trans ih2 hacc2lev
      · exact ih3 x hx

theorem loaderFlag_statsCache (st : LoaderState) (c : Prop) [Decidable c] (x : Int) :
    ((if c then { st with blockOutsideOfFrame_idx := x } else st) : LoaderState).statsCache =
      st.statsCache := by
  split <;> rfl

theorem loaderFlag_chartStatsCache (st : LoaderState) (c : Prop) [Decidable c] (x : Int) :
    ((if c then { st with blockOutsideOfFrame_idx := x } else st) : LoaderState).chartStatsCache =
      st.chartStatsCache := by
  split <;> rfl

theorem loaderCommit_appends (ctx : LoaderCtx) (frameIdx : Int) (st : LoaderState)
    (ty : Int) (row : List (List Char)) (v0 v1 v2 v3 : Int) (vectorData lineData : Bool)
    (hv : Bool) (hcap : mapGet? ctx.statTypes ty = some hv) :
    ∃ (st1 : LoaderState) (item : CacheItem),
      loaderCommit ctx frameIdx st ty row v0 v1 v2 v3 vectorData lineData =
        some (st1, true) ∧
      mapGet? st1.statsCache ty = some (((mapGet? st.statsCache ty).getD []) ++ [item]) ∧
      mapGet? st1.chartStatsCache ty =
        some (((mapGet? st.chartStatsCache ty).getD []) ++ [item]) ∧
      (hv = false → item = CacheItem.blockValue (qToInt (row.getD 1 []))
        (qToInt (row.getD 2 [])) (qToUInt (row.getD 3 [])) (qToUInt (row.getD 4 [])) v0) := by
  simp only [loaderCommit, hcap]
  cases hv with
  | false =>
    cases vectorData <;> cases lineData <;>
      refine ⟨_, CacheItem.blockValue (qToInt (row.getD 1 [])) (qToInt (row.getD 2 []))
          (qToUInt (row.getD 3 [])) (qToUInt (row.getD 4 [])) v0, rfl, ?_, ?_, fun _ => rfl⟩ <;>
        simp [cachesAppend, cacheAdd, mapGet?_mapSet_self,
              loaderFlag_statsCache, loaderFlag_chartStatsCache]
  | true =>
    cases vectorData with
    | true =>
      cases lineData <;>
        refine ⟨_, CacheItem.blockVector (qToInt (row.getD 1 [])) (qToInt (row.getD 2 []))
            (qToUInt (row.getD 3 [])) (qToUInt (row.getD 4 [])) v0 v1, rfl, ?_, ?_,
            fun h => nomatch h⟩ <;>
          simp [cachesAppend, cacheAdd, mapGet?_mapSet_self,
                loaderFlag_statsCache, loaderFlag_chartStatsCache]
    | false =>
      cases lineData with
      | true =>
        refine ⟨_, CacheItem.line (qToInt (row.getD 1 [])) (qToInt (row.getD 2 []))
            (qToUInt (row.getD 3 [])) (qToUInt (row.getD 4 [])) v0 v1 v2 v3, rfl, ?_, ?_,
            fun h => nomatch h⟩ <;>
          simp [cachesAppend, cacheAdd, mapGet?_mapSet_self,
                loaderFlag_statsCache, loaderFlag_chartStatsCache]
      | false =>
        refine ⟨_, CacheItem.blockValue (qToInt (row.getD 1 [])) (qToInt (row.getD 2 []))
            (qToUInt (row.getD 3 [])) (qToUInt (row.getD 4 [])) v0, rfl, ?_, ?_,
            fun h => nomatch h⟩ <;>
          simp [cachesAppend, cacheAdd, mapGet?_mapSet_self,
                loaderFlag_statsCache, loaderFlag_chartStatsCache]

/-! ### Claim theorems -/

/-- C4: when an index entry exists for (frameIdx, typeID), the scan
start offset of loadStatisticToCache is, in Interleaved mode
(fileSortedByPOC = true), the minimum of the offsets recorded for that
POC over all typeIDs (a member of them that bounds them all from
below), and in Sequential mode (fileSortedByPOC = false) the recorded
offset of the pair itself.  The bound hypothesis reflects that file
offsets fit in a qint64. -/
theorem c4_scan_start_offset (idx : PocTypeStartList) (frameIdx typeID : Int) (off : Nat)
    (hfound : ptslLookup idx frameIdx typeID = some off)
    (hbound : off ≤ qint64Max) :
    (loadScanStartPos idx true frameIdx typeID ∈ (ptslInner idx frameIdx).map Prod.snd ∧
      ∀ v ∈ (ptslInner idx frameIdx).map Prod.snd,
        loadScanStartPos idx true frameIdx typeID ≤ v) ∧
    loadScanStartPos idx false frameIdx typeID = off := by
  have e1 : loadScanStartPos idx true frameIdx typeID =
      minStartPos (ptslInner idx frameIdx) qint64Max := rfl
  have e2 : loadScanStartPos idx false frameIdx typeID =
      (ptslLookup idx frameIdx typeID).getD 0 := rfl
  have hmem : off ∈ (ptslInner idx frameIdx).map Prod.snd :=
    List.mem_map.mpr ⟨(typeID, off), mapGet?_mem _ _ _ hfound, rfl⟩
  obtain ⟨h1, _h2, h3⟩ := minStartPos_spec (ptslInner idx frameIdx) qint64Max
  refine ⟨⟨?_, ?_⟩, ?_⟩
  · rw [e1]
    rcases h1 with h | h
    · have hle := h3 off hmem
      rw [h] at hle
      have hoff : off = qint64Max := le_antisymm hbound hle
      rw [h, ← hoff]
      exact hmem
    · exact h
  · intro v hvmem
    rw [e1]
    exact h3 v hvmem
  · rw [e2, hfound]
    rfl

/-- C4 witness: the theorem applied to a concrete two-type index in
which the requested offset (100) is not the minimum (40). -/
theorem c4_witness :
    ((loadScanStartPos [(0, [(1, 100), (2, 40)])] true 0 1 ∈
        (ptslInner [(0, [(1, 100), (2, 40)])] 0).map Prod.snd ∧
      ∀ v ∈ (ptslInner [(0, [(1, 100), (2, 40)])] 0).map Prod.snd,
        loadScanStartPos [(0, [(1, 100), (2, 40)])] true 0 1 ≤ v) ∧
     loadScanStartPos [(0, [(1, 100), (2, 40)])] false 0 1 = 100) :=
  c4_scan_start_offset [(0, [(1, 100), (2, 40)])] 0 1 100 (by decide) (by decide)

/-- C8: for a (frameIdx, typeID) pair with no recorded offset,
loadStatisticToCache inserts an explicitly-empty entry for typeID into
both caches — an entry that reads as some [] and is therefore
distinguishable from a never-requested typeID, whose entry reads as
none — leaves every other entry unchanged, and returns without
scanning the file (the result does not depend on fileLines, which is
universally quantified and absent from the right-hand side). -/
theorem c8_index_miss_empty_entry (ctx : LoaderCtx) (idx : PocTypeStartList)
    (fileSortedByPOC : Bool) (fileLines : List (Nat × List Char)) (st : LoaderState)
    (frameIdx typeID : Int)
    (hmiss : ptslLookup idx frameIdx typeID = none) :
    loadStatisticToCache ctx idx fileSortedByPOC fileLines st frameIdx typeID =
      some { st with statsCache := mapSet st.statsCache typeID [],
                     chartStatsCache := mapSet st.chartStatsCache typeID [] } ∧
    mapGet? (mapSet st.statsCache typeID []) typeID = some [] ∧
    mapGet? (mapSet st.chartStatsCache typeID []) typeID = some [] ∧
    (∀ t, t ≠ typeID → mapGet? (mapSet st.statsCache typeID []) t = mapGet? st.statsCache t) ∧
    (∀ t, t ≠ typeID →
      mapGet? (mapSet st.chartStatsCache typeID []) t = mapGet? st.chartStatsCache t) := by
  have hpair : ptslContainsPair idx frameIdx typeID = false := by
    rw [ptslContainsPair_eq_isSome, hmiss]
    rfl
  have hguard : (!(ptslContainsPoc idx frameIdx) ||
      !(mapContains (ptslInner idx frameIdx) typeID)) = true := by
    unfold ptslContainsPair at hpair
    cases hA : ptslContainsPoc idx frameIdx <;>
      cases hB : mapContains (ptslInner idx frameIdx) typeID <;>
        simp_all
  refine ⟨?_, mapGet?_mapSet_self _ _ _, mapGet?_mapSet_self _ _ _,
    fun t ht => mapGet?_mapSet_ne _ _ _ _ ht, fun t ht => mapGet?_mapSet_ne _ _ _ _ ht⟩
  unfold loadStatisticToCache
  simp only [hguard, if_true]

/-- C8 witness: the theorem applied to the empty index, a nonempty
prior cache and an arbitrary concrete file. -/
theorem c8_witness :
    loadStatisticToCache ⟨[(1, true)], 176, 144⟩ [] false [(0, "0;0;0;4;4;1;7".toList)]
        { statsCache := [(5, [CacheItem.blockValue 0 0 1 1 2])] } 0 1 =
      some { ({ statsCache := [(5, [CacheItem.blockValue 0 0 1 1 2])] } : LoaderState) with
               statsCache := mapSet [(5, [CacheItem.blockValue 0 0 1 1 2])] 1 [],
               chartStatsCache := mapSet [] 1 [] } ∧
    mapGet? (mapSet [(5, [CacheItem.blockValue 0 0 1 1 2])] 1 []) 1 = some [] ∧
    mapGet? (mapSet ([] : StatsCache) 1 []) 1 = some [] ∧
    (∀ t, t ≠ 1 → mapGet? (mapSet [(5, [CacheItem.blockValue 0 0 1 1 2])] 1 []) t =
      mapGet? [(5, [CacheItem.blockValue 0 0 1 1 2])] t) ∧
    (∀ t, t ≠ 1 → mapGet? (mapSet ([] : StatsCache) 1 []) t = mapGet? ([] : StatsCache) t) :=
  c8_index_miss_empty_entry ⟨[(1, true)], 176, 144⟩ [] false [(0, "0;0;0;4;4;1;7".toList)]
    { statsCache := [(5, [CacheItem.blockValue 0 0 1 1 2])] } 0 1 (by decide)

/-- C10: a record reaching the decode step of loadStatisticToCache with
more than 8 fields makes the source read fields 8 and 9; on a record
with exactly 9 fields the access rowItemList[9] is out of range, so the
decode (modelled as loaderLineStep, where none marks the undefined
out-of-range access) is not total at 9 fields — totality is only
possible for records with at most 8 or at least 10 fields. -/
theorem c10_nine_field_record_out_of_range
    (ctx : LoaderCtx) (fileSortedByPOC : Bool) (frameIdx typeID : Int)
    (st : LoaderState) (aLine : List Char)
    (h0 : (parseCSVLine aLine ';').headD [] ≠ [])
    (hpoc : qToInt ((parseCSVLine aLine ';').headD []) = frameIdx)
    (hty : ¬ (fileSortedByPOC = false ∧ qToInt ((parseCSVLine aLine ';').getD 5 []) ≠ typeID))
    (hlen : (parseCSVLine aLine ';').length = 9) :
    loaderLineStep ctx fileSortedByPOC frameIdx typeID st aLine = none := by
  simp only [loaderLineStep]
  rw [if_neg h0]
  rw [if_pos (show 5 < (parseCSVLine aLine ';').length by omega)]
  rw [if_neg (not_not_intro hpoc)]
  rw [if_neg hty]
  rw [if_pos (show 6 < (parseCSVLine aLine ';').length by omega)]
  rw [if_pos (show 8 < (parseCSVLine aLine ';').length by omega)]
  rw [if_neg (show ¬ 9 < (parseCSVLine aLine ';').length by omega)]

/-- C10 witness: applied to the concrete nine-field record
0;1;2;4;4;1;7;8;9 (POC 0, position 1;2, size 4x4, typeID 1 and three
value fields). -/
theorem c10_witness :
    ((parseCSVLine "0;1;2;4;4;1;7;8;9".toList ';').headD [] ≠ [] ∧
     qToInt ((parseCSVLine "0;1;2;4;4;1;7;8;9".toList ';').headD []) = 0 ∧
     (parseCSVLine "0;1;2;4;4;1;7;8;9".toList ';').length = 9) ∧
    loaderLineStep ⟨[(1, true)], 176, 144⟩ true 0 1 {} "0;1;2;4;4;1;7;8;9".toList = none :=
  ⟨⟨by decide, by decide, by decide⟩,
   c10_nine_field_record_out_of_range ⟨[(1, true)], 176, 144⟩ true 0 1 {}
     "0;1;2;4;4;1;7;8;9".toList (by decide) (by decide) (by decide) (by decide)⟩

/-- C6: evidence for the code bug.  For header records whose field 1
names a known kind but which are shorter than the fields that kind
reads, readHeaderFromFile performs an out-of-range QStringList access
(undefined behaviour, a crash; the function body contains no throw, so
the HeaderResult type of the model has no parse-error outcome at all),
instead of failing with the ParseError that the specification
requires. -/
theorem c6_short_header_records_undefined_behaviour :
    readHeaderFromFile initHeaderState ["%;type".toList] = HeaderResult.outOfRange ∧
    readHeaderFromFile initHeaderState ["%;mapColor;1;255".toList] = HeaderResult.outOfRange ∧
    readHeaderFromFile initHeaderState ["%;range;0".toList] = HeaderResult.outOfRange ∧
    readHeaderFromFile initHeaderState ["%;vectorColor;10".toList] = HeaderResult.outOfRange ∧
    readHeaderFromFile initHeaderState ["%;seq-specs;name;0".toList] = HeaderResult.outOfRange := by
  decide

/-- C1 counterexample: a vector-shaped record (8 fields) of a type
declared without vector data is not dropped by loadStatisticToCache:
both caches change, the record being added as a scalar block value.
The claim asserts the caches are left exactly as they were. -/
theorem c1_counterexample :
    loadStatisticToCache ⟨[(1, false)], 176, 144⟩ [(0, [(1, 0)])] false
        [(0, "0;0;0;4;4;1;7;8".toList)] {} 0 1 ≠ some ({} : LoaderState) ∧
    loadStatisticToCache ⟨[(1, false)], 176, 144⟩ [(0, [(1, 0)])] false
        [(0, "0;0;0;4;4;1;7;8".toList)] {} 0 1 =
      some { statsCache := [(1, [CacheItem.blockValue 0 0 4 4 7])],
             chartStatsCache := [(1, [CacheItem.blockValue 0 0 4 4 7])],
             blockOutsideOfFrame_idx := -1 } := by
  decide

/-- C2 counterexample: in an interleaved file (fileSortedByPOC), the
type-2 record inside the block of POC 0 is decoded and added to the cache
entry of its own typeID although type 1 was requested; the claim
asserts such records are skipped and added to no cache entry. -/
theorem c2_counterexample :
    loadStatisticToCache ⟨[(1, false), (2, false)], 176, 144⟩ [(0, [(1, 0), (2, 14)])] true
        [(0, "0;0;0;4;4;1;7".toList), (14, "0;8;8;4;4;2;9".toList)] {} 0 1 =
      some { statsCache := [(1, [CacheItem.blockValue 0 0 4 4 7]),
                            (2, [CacheItem.blockValue 8 8 4 4 9])],
             chartStatsCache := [(1, [CacheItem.blockValue 0 0 4 4 7]),
                                 (2, [CacheItem.blockValue 8 8 4 4 9])],
             blockOutsideOfFrame_idx := -1 } ∧
    mapGet? [(1, [CacheItem.blockValue 0 0 4 4 7]),
             (2, [CacheItem.blockValue 8 8 4 4 9])] 2 ≠ some [] ∧
    mapGet? [(1, [CacheItem.blockValue 0 0 4 4 7]),
             (2, [CacheItem.blockValue 8 8 4 4 9])] 2 ≠ none := by
  decide

/-- C3 counterexample: the messages thrown by the indexer are not the
strings quoted in the claim.  The concrete interleaved run (POC 0 with
types 1 and 2, then POC 1, then POC 0 again) throws the actual source
message, which differs from the claimed wording. -/
theorem c3_counterexample :
    (runIndexer initScanState [⟨0, 1, 0⟩, ⟨0, 2, 8⟩, ⟨1, 1, 16⟩, ⟨0, 3, 24⟩]).2 =
      some interleavedContinuityError ∧
    interleavedContinuityError ≠
      "data for each POC must be continuous in an interleaved file" ∧
    sequentialContinuityError ≠
      "data for each type must be continuous in a non-interleaved file" := by
  decide

/-- C5 counterexample: the body [(POC 0, type 1), (POC 0, type 2)] is
strictly sequential in the sense of the claim (every (POC, type) pair is
contiguous and no POC or type repeats non-contiguously), yet the
indexer fixes LayoutMode Interleaved, not Sequential, because a type
change inside one POC block is the interleaved trigger. -/
theorem c5_counterexample :
    noNoncontigRepeats (([⟨0, 1, 0⟩, ⟨0, 2, 10⟩] : List IndexLine).map (fun l => l.poc)) ∧
    noNoncontigRepeats (([⟨0, 1, 0⟩, ⟨0, 2, 10⟩] : List IndexLine).map (fun l => l.ty)) ∧
    noNoncontigRepeats (([⟨0, 1, 0⟩, ⟨0, 2, 10⟩] : List IndexLine).map (fun l => (l.poc, l.ty))) ∧
    (runIndexer initScanState [⟨0, 1, 0⟩, ⟨0, 2, 10⟩]).2 = none ∧
    (runIndexer initScanState [⟨0, 1, 0⟩, ⟨0, 2, 10⟩]).1.layoutMode = LayoutMode.Interleaved ∧
    (runIndexer initScanState [⟨0, 1, 0⟩, ⟨0, 2, 10⟩]).1.layoutMode ≠ LayoutMode.Sequential := by
  decide

/-- C1 amended: a vector- or line-shaped record (more than one value
field) whose owning type declares hasVectorData = false is not dropped
by the loader: it is decoded and appended to both caches as a scalar
block value built from its position fields and its first value field,
the scan continues and no error is raised. -/
theorem c1_mismatched_record_added_as_block_value
    (ctx : LoaderCtx) (fileSortedByPOC : Bool) (frameIdx typeID : Int)
    (st : LoaderState) (aLine : List Char)
    (h0 : (parseCSVLine aLine ';').headD [] ≠ [])
    (hpoc : qToInt ((parseCSVLine aLine ';').headD []) = frameIdx)
    (hty : ¬ (fileSortedByPOC = false ∧ qToInt ((parseCSVLine aLine ';').getD 5 []) ≠ typeID))
    (hvec : 7 < (parseCSVLine aLine ';').length)
    (hnot9 : 8 < (parseCSVLine aLine ';').length → 9 < (parseCSVLine aLine ';').length)
    (hcap : mapGet? ctx.statTypes (qToInt ((parseCSVLine aLine ';').getD 5 [])) = some false) :
    ∃ st1 : LoaderState,
      loaderLineStep ctx fileSortedByPOC frameIdx typeID st aLine = some (st1, true) ∧
      mapGet? st1.statsCache (qToInt ((parseCSVLine aLine ';').getD 5 [])) =
        some (((mapGet? st.statsCache (qToInt ((parseCSVLine aLine ';').getD 5 []))).getD []) ++
          [CacheItem.blockValue (qToInt ((parseCSVLine aLine ';').getD 1 []))
            (qToInt ((parseCSVLine aLine ';').getD 2 []))
            (qToUInt ((parseCSVLine aLine ';').getD 3 []))
            (qToUInt ((parseCSVLine aLine ';').getD 4 []))
            (qToInt ((parseCSVLine aLine ';').getD 6 []))]) ∧
      mapGet? st1.chartStatsCache (qToInt ((parseCSVLine aLine ';').getD 5 [])) =
        some (((mapGet? st.chartStatsCache (qToInt ((parseCSVLine aLine ';').getD 5 []))).getD []) ++
          [CacheItem.blockValue (qToInt ((parseCSVLine aLine ';').getD 1 []))
            (qToInt ((parseCSVLine aLine ';').getD 2 []))
            (qToUInt ((parseCSVLine aLine ';').getD 3 []))
            (qToUInt ((parseCSVLine aLine ';').getD 4 []))
            (qToInt ((parseCSVLine aLine ';').getD 6 []))]) := by
  simp only [loaderLineStep]
  rw [if_neg h0]
  rw [if_pos (show 5 < (parseCSVLine aLine ';').length by omega)]
  rw [if_neg (not_not_intro hpoc)]
  rw [if_neg hty]
  rw [if_pos (show 6 < (parseCSVLine aLine ';').length by omega)]
  by_cases h8 : 8 < (parseCSVLine aLine ';').length
  · rw [if_pos h8, if_pos (hnot9 h8)]
    obtain ⟨st1, item, heq, hs, hc, hitem⟩ :=
      loaderCommit_appends ctx frameIdx st (qToInt ((parseCSVLine aLine ';').getD 5 []))
        (parseCSVLine aLine ';')
        (qToInt ((parseCSVLine aLine ';').getD 6 [])) (qToInt ((parseCSVLine aLine ';').getD 7 []))
        (qToInt ((parseCSVLine aLine ';').getD 8 [])) (qToInt ((parseCSVLine aLine ';').getD 9 []))
        false true false hcap
    refine ⟨st1, heq, ?_, ?_⟩
    · rw [hs, hitem rfl]
    · rw [hc, hitem rfl]
  · rw [if_neg h8]
    obtain ⟨st1, item, heq, hs, hc, hitem⟩ :=
      loaderCommit_appends ctx frameIdx st (qToInt ((parseCSVLine aLine ';').getD 5 []))
        (parseCSVLine aLine ';')
        (qToInt ((parseCSVLine aLine ';').getD 6 []))
        (if 7 < (parseCSVLine aLine ';').length then
          qToInt ((parseCSVLine aLine ';').getD 7 []) else 0)
        0 0 (decide (7 < (parseCSVLine aLine ';').length)) false false hcap
    refine ⟨st1, heq, ?_, ?_⟩
    · rw [hs, hitem rfl]
    · rw [hc, hitem rfl]

/-- C1 witness: the amended theorem applied to the eight-field record
0;0;0;4;4;1;7;8 whose type 1 declares hasVectorData = false. -/
theorem c1_witness :
    ∃ st1 : LoaderState,
      loaderLineStep ⟨[(1, false)], 176, 144⟩ false 0 1 {} "0;0;0;4;4;1;7;8".toList =
        some (st1, true) ∧
      mapGet? st1.statsCache (qToInt ((parseCSVLine "0;0;0;4;4;1;7;8".toList ';').getD 5 [])) =
        some (((mapGet? (({} : LoaderState)).statsCache
            (qToInt ((parseCSVLine "0;0;0;4;4;1;7;8".toList ';').getD 5 []))).getD []) ++
          [CacheItem.blockValue (qToInt ((parseCSVLine "0;0;0;4;4;1;7;8".toList ';').getD 1 []))
            (qToInt ((parseCSVLine "0;0;0;4;4;1;7;8".toList ';').getD 2 []))
            (qToUInt ((parseCSVLine "0;0;0;4;4;1;7;8".toList ';').getD 3 []))
            (qToUInt ((parseCSVLine "0;0;0;4;4;1;7;8".toList ';').getD 4 []))
            (qToInt ((parseCSVLine "0;0;0;4;4;1;7;8".toList ';').getD 6 []))]) ∧
      mapGet? st1.chartStatsCache (qToInt ((parseCSVLine "0;0;0;4;4;1;7;8".toList ';').getD 5 [])) =
        some (((mapGet? (({} : LoaderState)).chartStatsCache
            (qToInt ((parseCSVLine "0;0;0;4;4;1;7;8".toList ';').getD 5 []))).getD []) ++
          [CacheItem.blockValue (qToInt ((parseCSVLine "0;0;0;4;4;1;7;8".toList ';').getD 1 []))
            (qToInt ((parseCSVLine "0;0;0;4;4;1;7;8".toList ';').getD 2 []))
            (qToUInt ((parseCSVLine "0;0;0;4;4;1;7;8".toList ';').getD 3 []))
            (qToUInt ((parseCSVLine "0;0;0;4;4;1;7;8".toList ';').getD 4 []))
            (qToInt ((parseCSVLine "0;0;0;4;4;1;7;8".toList ';').getD 6 []))]) :=
  c1_mismatched_record_added_as_block_value ⟨[(1, false)], 176, 144⟩ false 0 1 {}
    "0;0;0;4;4;1;7;8".toList (by decide) (by decide) (by decide) (by decide)
    (by decide) (by decide)

/-- C2 amended: in Interleaved mode (fileSortedByPOC = true) the loader
scan stops at the first record whose POC differs from frameIdx, leaving
the state untouched from that record on; but a record inside the POC
block whose typeID differs from the requested one is not skipped: it is
decoded and appended to the cache entry of its own typeID, in both
caches, and the scan continues. -/
theorem c2_interleaved_poc_block (ctx : LoaderCtx) (frameIdx typeID : Int) :
    (∀ (st : LoaderState) (aLine : List Char) (rest : List (List Char)),
      (parseCSVLine aLine ';').headD [] ≠ [] →
      5 < (parseCSVLine aLine ';').length →
      qToInt ((parseCSVLine aLine ';').headD []) ≠ frameIdx →
      loaderScan ctx true frameIdx typeID st (aLine :: rest) = some st) ∧
    (∀ (st : LoaderState) (aLine : List Char) (hv : Bool),
      (parseCSVLine aLine ';').headD [] ≠ [] →
      qToInt ((parseCSVLine aLine ';').headD []) = frameIdx →
      qToInt ((parseCSVLine aLine ';').getD 5 []) ≠ typeID →
      6 < (parseCSVLine aLine ';').length →
      (8 < (parseCSVLine aLine ';').length → 9 < (parseCSVLine aLine ';').length) →
      mapGet? ctx.statTypes (qToInt ((parseCSVLine aLine ';').getD 5 [])) = some hv →
      ∃ (st1 : LoaderState) (item : CacheItem),
        loaderLineStep ctx true frameIdx typeID st aLine = some (st1, true) ∧
        mapGet? st1.statsCache (qToInt ((parseCSVLine aLine ';').getD 5 [])) =
          some (((mapGet? st.statsCache
            (qToInt ((parseCSVLine aLine ';').getD 5 []))).getD []) ++ [item]) ∧
        mapGet? st1.chartStatsCache (qToInt ((parseCSVLine aLine ';').getD 5 [])) =
          some (((mapGet? st.chartStatsCache
            (qToInt ((parseCSVLine aLine ';').getD 5 []))).getD []) ++ [item])) := by
  constructor
  · intro st aLine rest h0 h5 hpoc
    have hstep : loaderLineStep ctx true frameIdx typeID st aLine = some (st, false) := by
      simp only [loaderLineStep]
      rw [if_neg h0, if_pos h5, if_pos hpoc]
    simp [loaderScan, hstep]
  · intro st aLine hv h0 hpoc htyne h6 h9 hcap
    simp only [loaderLineStep]
    rw [if_neg h0]
    rw [if_pos (show 5 < (parseCSVLine aLine ';').length by omega)]
    rw [if_neg (not_not_intro hpoc)]
    rw [if_neg (show ¬ (true = false ∧ qToInt ((parseCSVLine aLine ';').getD 5 []) ≠ typeID)
          from fun hcon => nomatch hcon.1)]
    rw [if_pos h6]
    by_cases h8 : 8 < (parseCSVLine aLine ';').length
    · rw [if_pos h8, if_pos (h9 h8)]
      obtain ⟨st1, item, heq, hs, hc, _⟩ :=
        loaderCommit_appends ctx frameIdx st (qToInt ((parseCSVLine aLine ';').getD 5 []))
          (parseCSVLine aLine ';')
          (qToInt ((parseCSVLine aLine ';').getD 6 []))
          (qToInt ((parseCSVLine aLine ';').getD 7 []))
          (qToInt ((parseCSVLine aLine ';').getD 8 []))
          (qToInt ((parseCSVLine aLine ';').getD 9 []))
          false true hv hcap
      exact ⟨st1, item, heq, hs, hc⟩
    · rw [if_neg h8]
      obtain ⟨st1, item, heq, hs, hc, _⟩ :=
        loaderCommit_appends ctx frameIdx st (qToInt ((parseCSVLine aLine ';').getD 5 []))
          (parseCSVLine aLine ';')
          (qToInt ((parseCSVLine aLine ';').getD 6 []))
          (if 7 < (parseCSVLine aLine ';').length then
            qToInt ((parseCSVLine aLine ';').getD 7 []) else 0)
          0 0 (decide (7 < (parseCSVLine aLine ';').length)) false hv hcap
      exact ⟨st1, item, heq, hs, hc⟩

/-- C2 witness: the stop part applied to a record of a different POC,
and the decode part applied to the type-2 scalar record inside the
POC 0 block while type 1 is requested. -/
theorem c2_witness :
    loaderScan ⟨[(1, false), (2, false)], 176, 144⟩ true 0 1 {}
      ["1;0;0;4;4;1;7".toList] = some {} ∧
    ∃ (st1 : LoaderState) (item : CacheItem),
      loaderLineStep ⟨[(1, false), (2, false)], 176, 144⟩ true 0 1 {}
        "0;8;8;4;4;2;9".toList = some (st1, true) ∧
      mapGet? st1.statsCache (qToInt ((parseCSVLine "0;8;8;4;4;2;9".toList ';').getD 5 [])) =
        some (((mapGet? (({} : LoaderState)).statsCache
          (qToInt ((parseCSVLine "0;8;8;4;4;2;9".toList ';').getD 5 []))).getD []) ++ [item]) ∧
      mapGet? st1.chartStatsCache (qToInt ((parseCSVLine "0;8;8;4;4;2;9".toList ';').getD 5 [])) =
        some (((mapGet? (({} : LoaderState)).chartStatsCache
          (qToInt ((parseCSVLine "0;8;8;4;4;2;9".toList ';').getD 5 []))).getD []) ++ [item]) :=
  ⟨(c2_interleaved_poc_block ⟨[(1, false), (2, false)], 176, 144⟩ 0 1).1 {}
      "1;0;0;4;4;1;7".toList [] (by decide) (by decide) (by decide),
   (c2_interleaved_poc_block ⟨[(1, false), (2, false)], 176, 144⟩ 0 1).2 {}
      "0;8;8;4;4;2;9".toList false (by decide) (by decide) (by decide) (by decide)
      (by decide) (by decide)⟩

/-- C3 amended: once past the first data line, a POC change makes the
indexer raise a continuity error that terminates the scan with the
index retained (only sortingFixed is updated) and the message surfaced:
in Interleaved mode (fileSortedByPOC) when the new POC already has any
index entry, with the message "The data for each POC must be continuous
in an interleaved statistics file->"; in Sequential mode when the
(POC, typeID) pair is already indexed, with the message "The data for
each typeID must be continuous in an non interleaved statistics
file->".  These actual messages differ from the wording quoted in the
claim (see the counterexample). -/
theorem c3_continuity_violation (st : ScanState) (l : IndexLine) (rest : List IndexLine)
    (hnotfirst : ¬ (st.lastType = -1 ∧ st.lastPOC = -1))
    (hpoc : l.poc ≠ st.lastPOC) :
    (st.fileSortedByPOC = true → ptslContainsPoc st.pocTypeStartList l.poc = true →
      runIndexer st (l :: rest) =
        ({ st with sortingFixed := true }, some interleavedContinuityError)) ∧
    (st.fileSortedByPOC = false → ptslContainsPair st.pocTypeStartList l.poc l.ty = true →
      runIndexer st (l :: rest) =
        ({ st with sortingFixed := true }, some sequentialContinuityError)) := by
  have hb2 : ¬ (l.ty ≠ st.lastType ∧ l.poc = st.lastPOC) := fun h => hpoc h.2
  have hstA : (if st.sortingFixed then st else { st with sortingFixed := true }) =
      { st with sortingFixed := true } := by
    by_cases h : st.sortingFixed
    · rw [if_pos h, scanState_sortingFixed_overwrite st h]
    · rw [if_neg h]
  constructor
  · intro hfs hcont
    have hstep : indexLineStep st l =
        ({ st with sortingFixed := true }, some interleavedContinuityError) := by
      simp only [indexLineStep]
      rw [if_neg hnotfirst, if_neg hb2, if_pos hpoc, hstA]
      dsimp only
      rw [hfs]
      rw [if_pos rfl, if_pos hcont]
    simp only [runIndexer, hstep]
  · intro hfs hcont
    have hstep : indexLineStep st l =
        ({ st with sortingFixed := true }, some sequentialContinuityError) := by
      simp only [indexLineStep]
      rw [if_neg hnotfirst, if_neg hb2, if_pos hpoc, hstA]
      dsimp only
      rw [hfs]
      rw [if_neg (by simp), if_pos hcont]
    simp only [runIndexer, hstep]

/-- C3 witness: the theorem applied once in each mode, on a state whose
index already holds POC 0 / type 1, scanning a line that jumps back to
POC 0. -/
theorem c3_witness :
    runIndexer { pocTypeStartList := [(0, [(1, 0)])], lastPOC := 1, lastType := 1,
                 sortingFixed := true, fileSortedByPOC := true, maxPOC := 1 } [⟨0, 3, 24⟩] =
      ({ pocTypeStartList := [(0, [(1, 0)])], lastPOC := 1, lastType := 1,
         sortingFixed := true, fileSortedByPOC := true, maxPOC := 1 },
       some interleavedContinuityError) ∧
    runIndexer { pocTypeStartList := [(0, [(1, 0)])], lastPOC := 1, lastType := 1,
                 sortingFixed := true, fileSortedByPOC := false, maxPOC := 1 } [⟨0, 1, 40⟩] =
      ({ pocTypeStartList := [(0, [(1, 0)])], lastPOC := 1, lastType := 1,
         sortingFixed := true, fileSortedByPOC := false, maxPOC := 1 },
       some sequentialContinuityError) :=
  ⟨(c3_continuity_violation
      { pocTypeStartList := [(0, [(1, 0)])], lastPOC := 1, lastType := 1,
        sortingFixed := true, fileSortedByPOC := true, maxPOC := 1 }
      ⟨0, 3, 24⟩ [] (by decide) (by decide)).1 rfl (by decide),
   (c3_continuity_violation
      { pocTypeStartList := [(0, [(1, 0)])], lastPOC := 1, lastType := 1,
        sortingFixed := true, fileSortedByPOC := false, maxPOC := 1 }
      ⟨0, 1, 40⟩ [] (by decide) (by decide)).2 rfl (by decide)⟩

theorem indexLineStep_fixed_stable (st : ScanState) (l : IndexLine)
    (h : st.sortingFixed = true) :
    (indexLineStep st l).1.sortingFixed = true ∧
    (indexLineStep st l).1.fileSortedByPOC = st.fileSortedByPOC := by
  simp only [indexLineStep]
  split_ifs <;> simp_all

theorem runIndexer_fixed_stable (lines : List IndexLine) :
    ∀ st : ScanState, st.sortingFixed = true →
      (runIndexer st lines).1.sortingFixed = true ∧
      (runIndexer st lines).1.fileSortedByPOC = st.fileSortedByPOC := by
  induction lines with
  | nil =>
    intro st h
    exact ⟨h, rfl⟩
  | cons l ls ih =>
    intro st h
    obtain ⟨h1, h2⟩ := indexLineStep_fixed_stable st l h
    cases hstep : indexLineStep st l with
    | mk st1 e =>
      rw [hstep] at h1 h2
      cases e with
      | none =>
        obtain ⟨g1, g2⟩ := ih st1 h1
        simp only [runIndexer, hstep]
        exact ⟨g1, g2.trans h2⟩
      | some msg =>
        simp only [runIndexer, hstep]
        exact ⟨h1, h2⟩

/-- C9: the layout-mode decision of the indexing scan is final.  Part
one: once sortingFixed is set, running the scan over any further data
leaves sortingFixed set and never changes fileSortedByPOC (so the
Interleaved/Sequential decision never changes).  Part two: while the
mode is undecided, the first ambiguous observation fixes it — a
repeated POC with a different typeID fixes Interleaved
(fileSortedByPOC = true), a POC change fixes Sequential
(fileSortedByPOC stays false) — and sets sortingFixed in both cases. -/
theorem c9_layout_decision_final :
    (∀ (st : ScanState) (lines : List IndexLine), st.sortingFixed = true →
      (runIndexer st lines).1.sortingFixed = true ∧
      (runIndexer st lines).1.fileSortedByPOC = st.fileSortedByPOC) ∧
    (∀ (st : ScanState) (l : IndexLine),
      st.sortingFixed = false → st.fileSortedByPOC = false →
      ¬ (st.lastType = -1 ∧ st.lastPOC = -1) →
      ((l.ty ≠ st.lastType ∧ l.poc = st.lastPOC →
        (indexLineStep st l).1.sortingFixed = true ∧
        (indexLineStep st l).1.fileSortedByPOC = true) ∧
       (l.poc ≠ st.lastPOC →
        (indexLineStep st l).1.sortingFixed = true ∧
        (indexLineStep st l).1.fileSortedByPOC = false))) := by
  constructor
  · intro st lines h
    exact runIndexer_fixed_stable lines st h
  · intro st l hsf hfs hnotfirst
    constructor
    · intro hcond
      simp only [indexLineStep]
      rw [if_neg hnotfirst, if_pos hcond, if_neg (show ¬ st.sortingFixed = true by simp [hsf])]
      split_ifs <;> simp
    · intro hcond
      have hb2 : ¬ (l.ty ≠ st.lastType ∧ l.poc = st.lastPOC) := fun h => hcond h.2
      simp only [indexLineStep]
      rw [if_neg hnotfirst, if_neg hb2, if_pos hcond,
          if_neg (show ¬ st.sortingFixed = true by simp [hsf])]
      split_ifs <;> simp_all

/-- C9 witness: part one applied to an already-interleaved state and a
further POC change, part two applied once for each decision rule. -/
theorem c9_witness :
    ((runIndexer { pocTypeStartList := [(0, [(1, 0)])], lastPOC := 0, lastType := 1,
                   sortingFixed := true, fileSortedByPOC := true, maxPOC := 0 }
        [⟨1, 1, 5⟩]).1.sortingFixed = true ∧
     (runIndexer { pocTypeStartList := [(0, [(1, 0)])], lastPOC := 0, lastType := 1,
                   sortingFixed := true, fileSortedByPOC := true, maxPOC := 0 }
        [⟨1, 1, 5⟩]).1.fileSortedByPOC = true) ∧
    ((indexLineStep { pocTypeStartList := [(0, [(1, 0)])], lastPOC := 0, lastType := 1,
                      sortingFixed := false, fileSortedByPOC := false, maxPOC := 0 }
        ⟨0, 2, 8⟩).1.sortingFixed = true ∧
     (indexLineStep { pocTypeStartList := [(0, [(1, 0)])], lastPOC := 0, lastType := 1,
                      sortingFixed := false, fileSortedByPOC := false, maxPOC := 0 }
        ⟨0, 2, 8⟩).1.fileSortedByPOC = true) ∧
    ((indexLineStep { pocTypeStartList := [(0, [(1, 0)])], lastPOC := 0, lastType := 1,
                      sortingFixed := false, fileSortedByPOC := false, maxPOC := 0 }
        ⟨1, 1, 8⟩).1.sortingFixed = true ∧
     (indexLineStep { pocTypeStartList := [(0, [(1, 0)])], lastPOC := 0, lastType := 1,
                      sortingFixed := false, fileSortedByPOC := false, maxPOC := 0 }
        ⟨1, 1, 8⟩).1.fileSortedByPOC = false) :=
  ⟨c9_layout_decision_final.1
      { pocTypeStartList := [(0, [(1, 0)])], lastPOC := 0, lastType := 1,
        sortingFixed := true, fileSortedByPOC := true, maxPOC := 0 } [⟨1, 1, 5⟩] rfl,
   (c9_layout_decision_final.2
      { pocTypeStartList := [(0, [(1, 0)])], lastPOC := 0, lastType := 1,
        sortingFixed := false, fileSortedByPOC := false, maxPOC := 0 }
      ⟨0, 2, 8⟩ rfl rfl (by decide)).1 (by decide),
   (c9_layout_decision_final.2
      { pocTypeStartList := [(0, [(1, 0)])], lastPOC := 0, lastType := 1,
        sortingFixed := false, fileSortedByPOC := false, maxPOC := 0 }
      ⟨1, 1, 8⟩ rfl rfl (by decide)).2 (by decide)⟩

/-- C7: a run of the background indexing loop whose cancellation flag
becomes observable just before chunk k+1 is read (the flag is polled
once per iteration, before the read) produces exactly the state of
processing the first k chunks and no abnormal outcome: every index
entry of chunks 1..k is present unchanged and the parsing-error state
stays empty, indistinguishable from a cooperative stop.  The
hypothesis states that the first k chunks themselves processed
cleanly. -/
theorem c7_cancellation_is_clean (k : Nat) :
    ∀ (j bufferStartPos : Nat) (remaining : List Char) (ps psF : BgState),
      runFirstChunks k bufferStartPos remaining ps = (psF, none) →
      bgParseLoop (fun i => decide (j + k ≤ i)) j bufferStartPos remaining ps = (psF, none) := by
  induction k with
  | zero =>
    intro j bufferStartPos remaining ps psF h
    simp only [runFirstChunks] at h
    rw [bgParseLoop]
    have hc : decide (j + 0 ≤ j) = true := by simp
    rw [hc]
    simpa using h
  | succ k ih =>
    intro j bufferStartPos remaining ps psF h
    have hcancel : decide (j + (k + 1) ≤ j) = false := by
      simp only [decide_eq_false_iff_not]
      omega
    rw [bgParseLoop]
    simp only [hcancel, Bool.false_eq_true, if_false]
    simp only [runFirstChunks] at h
    cases hpc : processChunkFrom ps bufferStartPos 0
        (remaining.take STAT_PARSING_BUFFER_SIZE) with
    | mk ps1 a =>
      rw [hpc] at h
      cases a with
      | some ab => simp at h
      | none =>
        dsimp only at h ⊢
        by_cases hlen : (remaining.take STAT_PARSING_BUFFER_SIZE).length <
            STAT_PARSING_BUFFER_SIZE
        · rw [if_pos hlen] at h
          rw [dif_pos hlen]
          exact h
        · rw [if_neg hlen] at h
          rw [dif_neg hlen]
          have harith : j + 1 + k = j + (k + 1) := by omega
          have hrec := ih (j + 1)
            (bufferStartPos + (remaining.take STAT_PARSING_BUFFER_SIZE).length)
            (remaining.drop STAT_PARSING_BUFFER_SIZE) ps1 psF h
          rw [harith] at hrec
          exact hrec

/-- C7 witness: a two-line file processed in one chunk, with the
cancellation flag observed before the (empty) second read. -/
theorem c7_witness :
    bgParseLoop (fun i => decide (0 + 1 ≤ i)) 0 0
        "0;0;0;4;4;1;7\n1;0;0;4;4;1;8\n".toList initBgState =
      ((runFirstChunks 1 0 "0;0;0;4;4;1;7\n1;0;0;4;4;1;8\n".toList initBgState).1, none) :=
  c7_cancellation_is_clean 1 0 0 "0;0;0;4;4;1;7\n1;0;0;4;4;1;8\n".toList initBgState
    ((runFirstChunks 1 0 "0;0;0;4;4;1;7\n1;0;0;4;4;1;8\n".toList initBgState).1) (by decide)

theorem runIndexer_seqTail (pk : Int × Int) (seen : List (Int × Int))
    (lines : List IndexLine) (hseq : SeqTail pk seen lines) :
    ∀ st : ScanState,
      st.lastPOC = pk.1 → st.lastType = pk.2 → 0 ≤ pk.1 →
      st.fileSortedByPOC = false → pk ∈ seen →
      (∀ p t : Int, (ptslLookup st.pocTypeStartList p t).isSome = true ↔ (p, t) ∈ seen) →
      ∃ stF : ScanState,
        runIndexer st lines = (stF, none) ∧
        stF.fileSortedByPOC = false ∧
        (st.sortingFixed = true → stF.sortingFixed = true) ∧
        ((∃ l ∈ lines, l.poc ≠ pk.1) → stF.sortingFixed = true) ∧
        (∀ p t : Int, ptslLookup stF.pocTypeStartList p t =
          if (p, t) ∈ seen then ptslLookup st.pocTypeStartList p t
          else firstOffsetOf lines p t) := by
  induction hseq with
  | nil pk seen =>
    intro st hlp hlt hpos hfs hpkseen hiff
    refine ⟨st, rfl, hfs, fun h => h, ?_, ?_⟩
    · rintro ⟨l, hl, -⟩
      exact absurd hl (List.not_mem_nil l)
    · intro p t
      by_cases hmem : (p, t) ∈ seen
      · rw [if_pos hmem]
      · rw [if_neg hmem]
        have hns : ¬ (ptslLookup st.pocTypeStartList p t).isSome = true :=
          fun hs => hmem ((hiff p t).mp hs)
        simp only [firstOffsetOf]
        cases hlk : ptslLookup st.pocTypeStartList p t with
        | none => rfl
        | some v =>
          rw [hlk] at hns
          simp at hns
  | same pk seen off rest hrest ih =>
    intro st hlp hlt hpos hfs hpkseen hiff
    obtain ⟨idx0, lp, lt, sf, fp, mp⟩ := st
    simp only at hlp hlt hfs hiff
    subst hlp
    subst hlt
    subst hfs
    have hstep : indexLineStep ⟨idx0, pk.1, pk.2, sf, false, mp⟩ ⟨pk.1, pk.2, off⟩ =
        (⟨idx0, pk.1, pk.2, sf, false, mp⟩, none) := by
      have hb1 : ¬ ((⟨idx0, pk.1, pk.2, sf, false, mp⟩ : ScanState).lastType = -1 ∧
          (⟨idx0, pk.1, pk.2, sf, false, mp⟩ : ScanState).lastPOC = -1) := by
        rintro ⟨-, h2⟩
        simp only at h2
        omega
      have hb2 : ¬ ((⟨pk.1, pk.2, off⟩ : IndexLine).ty ≠
            (⟨idx0, pk.1, pk.2, sf, false, mp⟩ : ScanState).lastType ∧
          (⟨pk.1, pk.2, off⟩ : IndexLine).poc =
            (⟨idx0, pk.1, pk.2, sf, false, mp⟩ : ScanState).lastPOC) :=
        fun h => h.1 rfl
      have hb3 : ¬ (⟨pk.1, pk.2, off⟩ : IndexLine).poc ≠
          (⟨idx0, pk.1, pk.2, sf, false, mp⟩ : ScanState).lastPOC :=
        fun h => h rfl
      rw [indexLineStep, if_neg hb1, if_neg hb2, if_neg hb3]
    obtain ⟨stF, hrun, hfsF, hmono, hex, hlook⟩ :=
      ih ⟨idx0, pk.1, pk.2, sf, false, mp⟩ rfl rfl hpos rfl hpkseen hiff
    refine ⟨stF, ?_, hfsF, hmono, ?_, ?_⟩
    · rw [runIndexer, hstep]
      exact hrun
    · rintro ⟨l, hl, hlpoc⟩
      rcases List.mem_cons.mp hl with rfl | hl2
      · exact absurd rfl hlpoc
      · exact hex ⟨l, hl2, hlpoc⟩
    · intro p t
      by_cases hmem : (p, t) ∈ seen
      · rw [if_pos hmem]
        have hthis := hlook p t
        rw [if_pos hmem] at hthis
        exact hthis
      · rw [if_neg hmem]
        have hthis := hlook p t
        rw [if_neg hmem] at hthis
        rw [hthis]
        simp only [firstOffsetOf]
        rw [if_neg (show ¬ ((⟨pk.1, pk.2, off⟩ : IndexLine).poc = p ∧
            (⟨pk.1, pk.2, off⟩ : IndexLine).ty = t) by
          rintro ⟨he1, he2⟩
          simp only at he1 he2
          subst he1
          subst he2
          exact hmem hpkseen)]
  | newRun pk seen poc ty off rest hposn hne hns hrest ih =>
    intro st hlp hlt hpos hfs hpkseen hiff
    obtain ⟨idx0, lp, lt, sf, fp, mp⟩ := st
    simp only at hlp hlt hfs hiff
    subst hlp
    subst hlt
    subst hfs
    have hcontf : ¬ ptslContainsPair idx0 poc ty = true := by
      rw [ptslContainsPair_eq_isSome]
      exact fun hc => hns ((hiff poc ty).mp hc)
    have hstep : indexLineStep ⟨idx0, pk.1, pk.2, sf, false, mp⟩ ⟨poc, ty, off⟩ =
        (⟨ptslSet idx0 poc ty off, poc, ty, true, false,
          if mp < poc then poc else mp⟩, none) := by
      have hb1 : ¬ ((⟨idx0, pk.1, pk.2, sf, false, mp⟩ : ScanState).lastType = -1 ∧
          (⟨idx0, pk.1, pk.2, sf, false, mp⟩ : ScanState).lastPOC = -1) := by
        rintro ⟨-, h2⟩
        simp only at h2
        omega
      have hb2 : ¬ ((⟨poc, ty, off⟩ : IndexLine).ty ≠
            (⟨idx0, pk.1, pk.2, sf, false, mp⟩ : ScanState).lastType ∧
          (⟨poc, ty, off⟩ : IndexLine).poc =
            (⟨idx0, pk.1, pk.2, sf, false, mp⟩ : ScanState).lastPOC) :=
        fun h => hne h.2
      have hb3 : (⟨poc, ty, off⟩ : IndexLine).poc ≠
          (⟨idx0, pk.1, pk.2, sf, false, mp⟩ : ScanState).lastPOC := hne
      rw [indexLineStep, if_neg hb1, if_neg hb2, if_pos hb3]
      cases sf <;>
        simp only [Bool.false_eq_true, if_false, ite_self] <;>
        rw [if_neg hcontf]
    have hiff2 : ∀ p t : Int,
        ((ptslLookup (⟨ptslSet idx0 poc ty off, poc, ty, true, false,
            if mp < poc then poc else mp⟩ : ScanState).pocTypeStartList p t).isSome = true ↔
          (p, t) ∈ (poc, ty) :: seen) := by
      intro p t
      dsimp only
      by_cases hpt : (p, t) = (poc, ty)
      · injection hpt with he1 he2
        subst he1
        subst he2
        rw [ptslLookup_set_self]
        simp
      · rw [ptslLookup_set_ne _ _ _ _ _ _ hpt]
        rw [hiff p t]
        simp only [List.mem_cons]
        constructor
        · exact fun h => Or.inr h
        · rintro (h | h)
          · exact absurd h hpt
          · exact h
    obtain ⟨stF, hrun, hfsF, hmono, hex, hlook⟩ :=
      ih ⟨ptslSet idx0 poc ty off, poc, ty, true, false,
          if mp < poc then poc else mp⟩ rfl rfl hposn rfl (List.mem_cons_self _ _) hiff2
    refine ⟨stF, ?_, hfsF, fun _ => hmono rfl, fun _ => hmono rfl, ?_⟩
    · rw [runIndexer, hstep]
      exact hrun
    · intro p t
      by_cases hmem : (p, t) ∈ seen
      · rw [if_pos hmem]
        have hthis := hlook p t
        rw [if_pos (List.mem_cons_of_mem _ hmem)] at hthis
        rw [hthis]
        exact ptslLookup_set_ne idx0 poc ty p t off (fun he => hns (he ▸ hmem))
      · rw [if_neg hmem]
        by_cases hpt : (p, t) = (poc, ty)
        · injection hpt with he1 he2
          subst he1
          subst he2
          have hthis := hlook p t
          rw [if_pos (List.mem_cons_self _ _)] at hthis
          rw [hthis]
          have hself : ptslLookup (⟨ptslSet idx0 p t off, p, t, true, false,
              if mp < p then p else mp⟩ : ScanState).pocTypeStartList p t = some off :=
            ptslLookup_set_self idx0 p t off
          rw [hself]
          simp [firstOffsetOf]
        · have hthis := hlook p t
          rw [if_neg (show ¬ (p, t) ∈ (poc, ty) :: seen by
            simp only [List.mem_cons]
            rintro (h | h)
            · exact hpt h
            · exact hmem h)] at hthis
          rw [hthis]
          simp only [firstOffsetOf]
          rw [if_neg (show ¬ ((⟨poc, ty, off⟩ : IndexLine).poc = p ∧
              (⟨poc, ty, off⟩ : IndexLine).ty = t) by
            rintro ⟨he1, he2⟩
            simp only at he1 he2
            subst he1
            subst he2
            exact hpt rfl)]

/-- C5 amended: for a body of data lines with non-negative POCs whose
tail is type-major sequential in the sense of SeqTail — every line
either continues the run of the (POC, typeID) pair of the previous
line or starts a run with a fresh pair whose POC differs from that of
the previous line — and which contains a line whose POC differs from
that of the first line, the indexer completes without error, fixes LayoutMode
Sequential, and the index holds exactly one offset per (POC, typeID)
pair occurring in the body, equal to the byte offset of the first
line of that pair (and no offset for any other pair).  The claim as stated is
false: a type change inside one POC block (allowed by its hypotheses)
fixes Interleaved — see the counterexample. -/
theorem c5_sequential_body (poc0 ty0 : Int) (off0 : Nat) (rest : List IndexLine)
    (hpos : 0 ≤ poc0)
    (hseq : SeqTail (poc0, ty0) [(poc0, ty0)] rest)
    (hchange : ∃ l ∈ rest, l.poc ≠ poc0) :
    ∃ stF : ScanState,
      runIndexer initScanState (⟨poc0, ty0, off0⟩ :: rest) = (stF, none) ∧
      stF.layoutMode = LayoutMode.Sequential ∧
      ∀ p t : Int, ptslLookup stF.pocTypeStartList p t =
        firstOffsetOf (⟨poc0, ty0, off0⟩ :: rest) p t := by
  have hstep : indexLineStep initScanState ⟨poc0, ty0, off0⟩ =
      (⟨ptslSet [] poc0 ty0 off0, poc0, ty0, false, false,
        if 0 < poc0 then poc0 else 0⟩, none) := by
    rw [indexLineStep, if_pos (show initScanState.lastType = -1 ∧ initScanState.lastPOC = -1
        from ⟨rfl, rfl⟩)]
    rfl
  have hiff1 : ∀ p t : Int,
      ((ptslLookup (ptslSet [] poc0 ty0 off0) p t).isSome = true ↔
        (p, t) ∈ [((poc0, ty0) : Int × Int)]) := by
    intro p t
    by_cases hpt : (p, t) = (poc0, ty0)
    · injection hpt with he1 he2
      subst he1
      subst he2
      rw [ptslLookup_set_self]
      simp
    · rw [ptslLookup_set_ne _ _ _ _ _ _ hpt]
      simp only [List.mem_singleton]
      constructor
      · intro h
        exact absurd h (by simp [ptslLookup, ptslInner, mapGet?])
      · intro h
        exact absurd h hpt
  obtain ⟨stF, hrun, hfsF, hmono, hex, hlook⟩ :=
    runIndexer_seqTail (poc0, ty0) [(poc0, ty0)] rest hseq
      ⟨ptslSet [] poc0 ty0 off0, poc0, ty0, false, false, if 0 < poc0 then poc0 else 0⟩
      rfl rfl hpos rfl (List.mem_cons_self _ _) hiff1
  have hfix : stF.sortingFixed = true := hex hchange
  refine ⟨stF, ?_, ?_, ?_⟩
  · rw [runIndexer, hstep]
    exact hrun
  · simp [ScanState.layoutMode, hfix, hfsF]
  · intro p t
    have hthis := hlook p t
    by_cases hpt : (p, t) = (poc0, ty0)
    · injection hpt with he1 he2
      subst he1
      subst he2
      rw [if_pos (List.mem_singleton.mpr rfl)] at hthis
      rw [hthis]
      have hself : ptslLookup (⟨ptslSet [] p t off0, p, t, false, false,
          if 0 < p then p else 0⟩ : ScanState).pocTypeStartList p t = some off0 :=
        ptslLookup_set_self [] p t off0
      rw [hself]
      simp [firstOffsetOf]
    · rw [if_neg (fun h => hpt (List.mem_singleton.mp h))] at hthis
      rw [hthis]
      simp only [firstOffsetOf]
      rw [if_neg (show ¬ ((⟨poc0, ty0, off0⟩ : IndexLine).poc = p ∧
          (⟨poc0, ty0, off0⟩ : IndexLine).ty = t) by
        rintro ⟨he1, he2⟩
        simp only at he1 he2
        subst he1
        subst he2
        exact hpt rfl)]

/-- C5 witness: the amended theorem applied to the type-major body
[(POC 0, type 1), (POC 1, type 1), (POC 2, type 1)]. -/
theorem c5_witness :
    ∃ stF : ScanState,
      runIndexer initScanState [⟨0, 1, 0⟩, ⟨1, 1, 10⟩, ⟨2, 1, 20⟩] = (stF, none) ∧
      stF.layoutMode = LayoutMode.Sequential ∧
      ∀ p t : Int, ptslLookup stF.pocTypeStartList p t =
        firstOffsetOf [⟨0, 1, 0⟩, ⟨1, 1, 10⟩, ⟨2, 1, 20⟩] p t :=
  c5_sequential_body 0 1 0 [⟨1, 1, 10⟩, ⟨2, 1, 20⟩] (by decide)
    (SeqTail.newRun _ _ 1 1 10 _ (by decide) (by decide) (by decide)
      (SeqTail.newRun _ _ 2 1 20 _ (by decide) (by decide) (by decide)
        (SeqTail.nil _ _)))
    ⟨⟨1, 1, 10⟩, by decide, by decide⟩
